import Mathlib

set_option maxRecDepth 100000

/-!
# Verification of the ProcessConsole UART capsule

Shallow embedding of `src/capsules/src/process_console.rs`: a serial console
that accumulates a command line byte by byte (with echo and backspace
handling) and multiplexes a single transmit and a single receive buffer
over a UART.

Bytes are modelled as `Nat` (the Rust code works on `u8`; every theorem
quantifying over a byte therefore covers all `u8` values).  The UART
itself is external: calls to `uart.transmit` / `uart.receive` are recorded
in an output trace of `UartOp`s.  `TakeCell` slots become `Option`s.
-/

namespace ProcessConsole

/-- Return codes used by the capsule (`kernel::ReturnCode`). -/
inductive ReturnCode where
  | SUCCESS : ReturnCode
  | EBUSY : ReturnCode
deriving DecidableEq, Repr

/-- Completion status delivered by the UART (`hil::uart::Error`):
`CommandComplete` is the success status, `Other` stands for any
error status. -/
inductive UartError where
  | CommandComplete : UartError
  | Other : UartError
deriving DecidableEq, Repr

/-- A call made on the external UART: `uart.transmit(buffer, len)` or
`uart.receive(buffer, len)`, recorded with the buffer contents handed
to the hardware. -/
inductive UartOp where
  | transmit (buffer : List Nat) (len : Nat) : UartOp
  | receive (buffer : List Nat) (len : Nat) : UartOp
deriving DecidableEq, Repr

/-- The state of `ProcessConsole` (struct fields of the Rust type).
`TakeCell` slots are `Option`s: `none` means the buffer is currently
owned by the in-flight hardware operation. -/
structure Console where
  tx_in_progress : Bool
  tx_buffer : Option (List Nat)
  rx_in_progress : Bool
  rx_buffer : Option (List Nat)
  baud_rate : Nat
  command_buffer : List Nat
  command_index : Nat
  running : Bool
deriving DecidableEq, Repr

/-- Constructor `ProcessConsole::new`: construct the console with caller-supplied
buffers; no transfer is in flight, nothing is running, the command
cursor is 0. -/
def new (uart_baud : Nat) (txb rxb cmdb : List Nat) : Console :=
  { tx_in_progress := false
    tx_buffer := some txb
    rx_in_progress := false
    rx_buffer := some rxb
    baud_rate := uart_baud
    command_buffer := cmdb
    command_index := 0
    running := false }

/-- Operation `ProcessConsole::start`: if not running, take the receive buffer and
(if it is present) arm a length-1 receive, set `rx_in_progress` and
`running`; always returns `SUCCESS`. -/
def start (s : Console) : Console × List UartOp × ReturnCode :=
  if s.running = false then
    match s.rx_buffer with
    | some buffer =>
        ({ s with rx_in_progress := true
                  rx_buffer := none
                  running := true },
         [UartOp.receive buffer 1], ReturnCode.SUCCESS)
    | none => (s, [], ReturnCode.SUCCESS)
  else (s, [], ReturnCode.SUCCESS)

/-- Operation `ProcessConsole::read_command`: hand the completed line off (the
dispatch is a stub that only logs), zero the first byte of the command
buffer and reset the cursor to 0. -/
def read_command (s : Console) : Console :=
  { s with command_buffer := s.command_buffer.set 0 0
           command_index := 0 }

/-- Operation `ProcessConsole::write_byte`: busy-fail with `EBUSY` if a transmit is
in flight; otherwise mark transmit-in-progress, take the transmit
buffer, store the byte at offset 0 and issue a length-1 transmit. -/
def write_byte (s : Console) (b : Nat) : Console × List UartOp × ReturnCode :=
  if s.tx_in_progress then (s, [], ReturnCode.EBUSY)
  else
    match s.tx_buffer with
    | some buffer =>
        ({ s with tx_in_progress := true, tx_buffer := none },
         [UartOp.transmit (buffer.set 0 b) 1], ReturnCode.SUCCESS)
    | none => ({ s with tx_in_progress := true }, [], ReturnCode.SUCCESS)

/-- The copy loop of `write_bytes`: `for i in 0..len` copying `bytes[i]` into `buffer[i]`. -/
def copy_into (buffer bytes : List Nat) (len : Nat) : List Nat :=
  (List.range buffer.length).map
    (fun i => if i < len then bytes.getD i 0 else buffer.getD i 0)

/-- Operation `ProcessConsole::write_bytes`: busy-fail with `EBUSY` if a transmit is
in flight; otherwise copy `min (bytes.length) (buffer.length)` bytes into
the transmit buffer and issue a transmit of that length. -/
def write_bytes (s : Console) (bytes : List Nat) : Console × List UartOp × ReturnCode :=
  if s.tx_in_progress then (s, [], ReturnCode.EBUSY)
  else
    match s.tx_buffer with
    | some buffer =>
        ({ s with tx_in_progress := true, tx_buffer := none },
         [UartOp.transmit (copy_into buffer bytes (min bytes.length buffer.length))
            (min bytes.length buffer.length)],
         ReturnCode.SUCCESS)
    | none => ({ s with tx_in_progress := true }, [], ReturnCode.SUCCESS)

/-- Callback `Client::transmit_complete`: the hardware returns the transmit buffer;
store it back in the slot and clear the transmit-in-progress flag. -/
def transmit_complete (s : Console) (buffer : List Nat) : Console :=
  { s with tx_buffer := some buffer, tx_in_progress := false }

/-- The body of the `self.command_buffer.map(|command| ...)` closure in
`receive_complete`, processing the single received byte `b` against the
command buffer.  Returns the updated state, the UART calls made while
echoing, and the `execute` flag (set by CR/LF). -/
def handle_byte (s : Console) (b : Nat) : Console × List UartOp × Bool :=
  if b = 10 ∨ b = 13 then
    (s, [], true)
  else if b = 8 ∧ 0 < s.command_index then
    ({ (write_bytes s [8, 32, 8]).1 with
         command_buffer := s.command_buffer.set (s.command_index - 1) 0,
         command_index := s.command_index - 1 },
     (write_bytes s [8, 32, 8]).2.1, false)
  else if s.command_index < s.command_buffer.length - 1 then
    ({ (write_byte s b).1 with
         command_buffer := (s.command_buffer.set s.command_index b).set
           (s.command_index + 1) 0,
         command_index := s.command_index + 1 },
     (write_byte s b).2.1, false)
  else (s, [], false)

/-- Unconditional tail of `receive_complete`: mark a receive in progress,
issue the next length-1 receive with the same `read_buf`, and hand the
line off (`read_command`) when the execute flag was set. -/
def rearm (r : Console × List UartOp × Bool) (read_buf : List Nat) :
    Console × List UartOp :=
  if r.2.2 then
    (read_command { r.1 with rx_in_progress := true },
     r.2.1 ++ [UartOp.receive read_buf 1])
  else
    ({ r.1 with rx_in_progress := true },
     r.2.1 ++ [UartOp.receive read_buf 1])

/-- Callback `Client::receive_complete`: on a `CommandComplete` status with length 1
the received byte is handled (`handle_byte`); a length of 0 or of 2 and
more is only logged; any other status is ignored.  Unconditionally the
receive is re-armed (`rx_in_progress := true`, `uart.receive(read_buf, 1)`)
and, if a CR/LF was seen, the line is handed off via `read_command`. -/
def receive_complete (s : Console) (read_buf : List Nat) (rx_len : Nat)
    (error : UartError) : Console × List UartOp :=
  rearm
    (if error = UartError.CommandComplete then
       if rx_len = 1 then handle_byte s (read_buf.getD 0 0)
       else (s, [], false)
     else (s, [], false))
    read_buf

/-- Deliver a list of bytes one per `receive_complete` callback, each with
status `CommandComplete` and length 1, discarding the UART traces. -/
def run_receives (s : Console) (bytes : List Nat) : Console :=
  bytes.foldl
    (fun t b => (receive_complete t [b] 1 UartError.CommandComplete).1) s

/-- Same as `run_receives` but also accumulating the UART call trace. -/
def run_receives_ops (s : Console) (bytes : List Nat) : Console × List UartOp :=
  bytes.foldl
    (fun p b =>
      let r := receive_complete p.1 [b] 1 UartError.CommandComplete
      (r.1, p.2 ++ r.2))
    (s, [])

/-- Is this UART call a receive request? -/
def is_receive_op : UartOp → Bool
  | UartOp.receive _ _ => true
  | UartOp.transmit _ _ => false

/-- Is this UART call a transmit request? -/
def is_transmit_op : UartOp → Bool
  | UartOp.transmit _ _ => true
  | UartOp.receive _ _ => false

/-- The buffers handed to `uart.transmit` in a trace, in order. -/
def transmit_bufs (ops : List UartOp) : List (List Nat) :=
  ops.filterMap
    (fun op =>
      match op with
      | UartOp.transmit buffer _ => some buffer
      | UartOp.receive _ _ => none)

/-- The first byte of each buffer handed to `uart.transmit` in a trace:
for length-1 echo transmits this is the echoed byte. -/
def echoed_bytes (ops : List UartOp) : List Nat :=
  (transmit_bufs ops).map (fun buffer => buffer.getD 0 0)

/-- One external entry point of the capsule, for reachability statements. -/
inductive Event where
  | writeByte (b : Nat) : Event
  | writeBytes (bs : List Nat) : Event
  | transmitComplete (buffer : List Nat) : Event
  | receiveComplete (read_buf : List Nat) (rx_len : Nat) (error : UartError) : Event
deriving DecidableEq, Repr

/-- Apply one entry point to the console state (UART trace discarded). -/
def apply_event (s : Console) : Event → Console
  | Event.writeByte b => (write_byte s b).1
  | Event.writeBytes bs => (write_bytes s bs).1
  | Event.transmitComplete buffer => transmit_complete s buffer
  | Event.receiveComplete rb l err => (receive_complete s rb l err).1

/-- Run a sequence of entry-point invocations. -/
def run_events (s : Console) (es : List Event) : Console :=
  es.foldl apply_event s

/-- The command-buffer invariant of the design: the cursor is inside the
buffer and the buffer is NUL-terminated exactly at the cursor. -/
def cmd_invariant (s : Console) : Prop :=
  s.command_index < s.command_buffer.length ∧
    s.command_buffer.getD s.command_index 0 = 0

instance (s : Console) : Decidable (cmd_invariant s) := by
  unfold cmd_invariant; infer_instance

/-- The transmit-buffer ownership invariant: whenever no transmit is in
flight, the console holds the transmit buffer. -/
def tx_invariant (s : Console) : Prop :=
  s.tx_in_progress = false → s.tx_buffer.isSome = true

instance (s : Console) : Decidable (tx_invariant s) := by
  unfold tx_invariant; infer_instance

/-- A freshly constructed console with the buffer sizes of the source
(64-byte `WRITE_BUF`, 16-byte `READ_BUF`, 16-byte `COMMAND_BUF`) at the
baud rate of the module's setup example. -/
def demo_console : Console :=
  new 115200 (List.replicate 64 0) (List.replicate 16 0) (List.replicate 16 0)

/-- First step of the interleaved `h i newline` scenario: the byte `h`
arrives. -/
def hi_r1 : Console × List UartOp :=
  receive_complete demo_console [104] 1 UartError.CommandComplete

/-- The hardware completes the echo transmit of `h`, returning the very
buffer it was handed. -/
def hi_s1 : Console :=
  transmit_complete hi_r1.1 ((transmit_bufs hi_r1.2).getD 0 [])

/-- The byte `i` arrives. -/
def hi_r2 : Console × List UartOp :=
  receive_complete hi_s1 [105] 1 UartError.CommandComplete

/-- The hardware completes the echo transmit of `i`. -/
def hi_s2 : Console :=
  transmit_complete hi_r2.1 ((transmit_bufs hi_r2.2).getD 0 [])

/-- The terminating newline arrives: the line is marked ready and handed
off inside this callback. -/
def hi_r3 : Console × List UartOp :=
  receive_complete hi_s2 [10] 1 UartError.CommandComplete

/-! ## Helper lemmas -/

/-- Reading a just-written position of a list. -/
theorem getD_set_self : ∀ (l : List Nat) (i a d : Nat), i < l.length →
    (l.set i a).getD i d = a
  | _ :: _, 0, _, _, _ => rfl
  | _ :: xs, i + 1, a, d, h => getD_set_self xs i a d (Nat.lt_of_succ_lt_succ h)
  | [], i, _, _, h => absurd h (Nat.not_lt_zero i)

/-- Writing one position of a list leaves every other position alone. -/
theorem getD_set_ne : ∀ (l : List Nat) (i j a d : Nat), i ≠ j →
    (l.set i a).getD j d = l.getD j d
  | [], _, _, _, _, _ => rfl
  | _ :: _, 0, 0, _, _, h => absurd rfl h
  | _ :: _, 0, _ + 1, _, _, _ => rfl
  | _ :: _, _ + 1, 0, _, _, _ => rfl
  | _ :: xs, i + 1, j + 1, a, d, h =>
      getD_set_ne xs i j a d (fun e => h (congrArg Nat.succ e))

/-- A `write_byte` call touches only the transmit-side fields. -/
theorem write_byte_fields (s : Console) (b : Nat) :
    (write_byte s b).1.command_buffer = s.command_buffer ∧
    (write_byte s b).1.command_index = s.command_index ∧
    (write_byte s b).1.rx_in_progress = s.rx_in_progress ∧
    (write_byte s b).1.rx_buffer = s.rx_buffer ∧
    (write_byte s b).1.running = s.running := by
  unfold write_byte
  split
  · exact ⟨rfl, rfl, rfl, rfl, rfl⟩
  · split <;> exact ⟨rfl, rfl, rfl, rfl, rfl⟩

/-- A `write_bytes` call touches only the transmit-side fields. -/
theorem write_bytes_fields (s : Console) (bs : List Nat) :
    (write_bytes s bs).1.command_buffer = s.command_buffer ∧
    (write_bytes s bs).1.command_index = s.command_index ∧
    (write_bytes s bs).1.rx_in_progress = s.rx_in_progress ∧
    (write_bytes s bs).1.rx_buffer = s.rx_buffer ∧
    (write_bytes s bs).1.running = s.running := by
  unfold write_bytes
  split
  · exact ⟨rfl, rfl, rfl, rfl, rfl⟩
  · split <;> exact ⟨rfl, rfl, rfl, rfl, rfl⟩

/-- The echo trace of a `write_byte` call contains no receive request. -/
theorem write_byte_ops_no_receive (s : Console) (b : Nat) :
    ((write_byte s b).2.1.filter is_receive_op) = [] := by
  unfold write_byte
  split
  · rfl
  · split <;> simp [is_receive_op]

/-- The echo trace of a `write_bytes` call contains no receive request. -/
theorem write_bytes_ops_no_receive (s : Console) (bs : List Nat) :
    ((write_bytes s bs).2.1.filter is_receive_op) = [] := by
  unfold write_bytes
  split
  · rfl
  · split <;> simp [is_receive_op]

/-- The echo trace produced while handling one byte contains no receive
request: only `uart.transmit` is ever called from the line editor. -/
theorem handle_byte_ops_no_receive (s : Console) (b : Nat) :
    ((handle_byte s b).2.1.filter is_receive_op) = [] := by
  unfold handle_byte
  split
  · rfl
  · split
    · exact write_bytes_ops_no_receive s [8, 32, 8]
    · split
      · exact write_byte_ops_no_receive s b
      · rfl

/-- The state produced by `rearm` always has a receive in progress. -/
theorem rearm_rx_in_progress (r : Console × List UartOp × Bool)
    (rb : List Nat) : (rearm r rb).1.rx_in_progress = true := by
  unfold rearm read_command
  split <;> rfl

/-- If the echo trace holds no receive request, the re-armed trace holds
exactly the one new length-1 receive request. -/
theorem rearm_receive_ops (r : Console × List UartOp × Bool) (rb : List Nat)
    (h : r.2.1.filter is_receive_op = []) :
    (rearm r rb).2.filter is_receive_op = [UartOp.receive rb 1] := by
  unfold rearm
  split <;>
    (show (r.2.1 ++ [UartOp.receive rb 1]).filter is_receive_op =
        [UartOp.receive rb 1]
     rw [List.filter_append, h]
     rfl)

/-! ## Claims -/

/-- Claim C3: every invocation of `receive_complete` sets `rx_in_progress`
true and issues exactly one new length-1 receive request on the UART, for
every received byte value, every reported length and every completion
status. -/
theorem claim_C3 (s : Console) (read_buf : List Nat) (rx_len : Nat)
    (err : UartError) :
    (receive_complete s read_buf rx_len err).1.rx_in_progress = true ∧
    ((receive_complete s read_buf rx_len err).2.filter is_receive_op) =
      [UartOp.receive read_buf 1] := by
  constructor
  · exact rearm_rx_in_progress _ read_buf
  · apply rearm_receive_ops
    split
    · split
      · exact handle_byte_ops_no_receive s (read_buf.getD 0 0)
      · rfl
    · rfl

/-- Claim C4: while a transmit is in flight, `write_byte` and `write_bytes`
return `EBUSY` and leave the whole console state unchanged, issuing no
UART request. -/
theorem claim_C4 (s : Console) (b : Nat) (bs : List Nat)
    (h : s.tx_in_progress = true) :
    write_byte s b = (s, [], ReturnCode.EBUSY) ∧
    write_bytes s bs = (s, [], ReturnCode.EBUSY) := by
  unfold write_byte write_bytes
  rw [h]
  exact ⟨rfl, rfl⟩

/-- Witness for C4 at a concrete busy console. -/
theorem claim_C4_witness :
    write_byte { demo_console with tx_in_progress := true } 7 =
      ({ demo_console with tx_in_progress := true }, [], ReturnCode.EBUSY) ∧
    write_bytes { demo_console with tx_in_progress := true } [1, 2, 3] =
      ({ demo_console with tx_in_progress := true }, [], ReturnCode.EBUSY) :=
  claim_C4 { demo_console with tx_in_progress := true } 7 [1, 2, 3] rfl

/-- Claim C8: `start` always returns `SUCCESS`; when not yet running (and
the receive buffer is in its slot) it takes the buffer, arms one length-1
receive and sets `running` and `rx_in_progress`; when already running it
changes nothing; a second `start` after a first is always a no-op. -/
theorem claim_C8 :
    (∀ s rxb, s.running = false → s.rx_buffer = some rxb →
      start s = ({ s with rx_in_progress := true, rx_buffer := none,
                          running := true },
                 [UartOp.receive rxb 1], ReturnCode.SUCCESS)) ∧
    (∀ s, s.running = true → start s = (s, [], ReturnCode.SUCCESS)) ∧
    (∀ s, (start s).2.2 = ReturnCode.SUCCESS) ∧
    (∀ s, start (start s).1 = ((start s).1, [], ReturnCode.SUCCESS)) := by
  refine ⟨?_, ?_, ?_, ?_⟩
  · intro s rxb h1 h2
    simp [start, h1, h2]
  · intro s h
    simp [start, h]
  · intro s
    unfold start
    split
    · split <;> rfl
    · rfl
  · intro s
    cases hr : s.running <;> cases hb : s.rx_buffer <;> simp [start, hr, hb]

/-- Counterexample to claim C1 as stated: from the reset state a backspace
received at cursor 0 is not a no-op.  It falls through to the
ordinary-byte branch: the 0x08 byte is echoed (one transmit request with
first byte 8), stored at position 0, and the cursor moves to 1. -/
theorem claim_C1_counterexample :
    demo_console.command_index = 0 ∧
    (receive_complete demo_console [8] 1
        UartError.CommandComplete).1.command_index = 1 ∧
    (receive_complete demo_console [8] 1
        UartError.CommandComplete).1.command_buffer.getD 0 0 = 8 ∧
    (receive_complete demo_console [8] 1
        UartError.CommandComplete).1.command_buffer ≠
      demo_console.command_buffer ∧
    echoed_bytes (receive_complete demo_console [8] 1
        UartError.CommandComplete).2 = [8] ∧
    (transmit_bufs (receive_complete demo_console [8] 1
        UartError.CommandComplete).2).length = 1 := by
  decide

/-- Amended claim C1: a backspace received while `command_index` is 0 is
handled by the ordinary-byte branch (the guarded backspace branch requires
a positive cursor): given room in the buffer (capacity at least 2), the
byte 0x08 is echoed via `write_byte`, stored at position 0, position 1 is
zeroed and the cursor becomes 1. -/
theorem claim_C1 (s : Console) (read_buf : List Nat)
    (h0 : s.command_index = 0) (hcap : 2 ≤ s.command_buffer.length)
    (hb : read_buf.getD 0 0 = 8) :
    (receive_complete s read_buf 1
        UartError.CommandComplete).1.command_index = 1 ∧
    (receive_complete s read_buf 1
        UartError.CommandComplete).1.command_buffer =
      (s.command_buffer.set 0 8).set 1 0 ∧
    (receive_complete s read_buf 1 UartError.CommandComplete).2 =
      (write_byte s 8).2.1 ++ [UartOp.receive read_buf 1] := by
  have hroom : 0 < s.command_buffer.length - 1 := by omega
  have e1 : receive_complete s read_buf 1 UartError.CommandComplete =
      rearm (handle_byte s 8) read_buf := by
    unfold receive_complete
    rw [hb]
    rfl
  have e2 : handle_byte s 8 =
      ({ (write_byte s 8).1 with
           command_buffer := (s.command_buffer.set 0 8).set 1 0,
           command_index := 1 },
       (write_byte s 8).2.1, false) := by
    simp [handle_byte, h0, hroom]
  rw [e1, e2]
  exact ⟨rfl, rfl, rfl⟩

/-- Witness for the amended claim C1 at the reset state. -/
theorem claim_C1_witness :
    (receive_complete demo_console [8] 1
        UartError.CommandComplete).1.command_index = 1 :=
  (claim_C1 demo_console [8] rfl (by decide) rfl).1

/-- Claim C6: a backspace received while the cursor `i` is positive zeroes
the byte at `i - 1` (leaving every other byte unchanged), decrements the
cursor, and requests the 3-byte erase sequence backspace-space-backspace
as echo through `write_bytes`. -/
theorem claim_C6 (s : Console) (read_buf : List Nat) (i : Nat)
    (hi : s.command_index = i) (hpos : 0 < i)
    (hlt : i < s.command_buffer.length)
    (hb : read_buf.getD 0 0 = 8) :
    (receive_complete s read_buf 1
        UartError.CommandComplete).1.command_index = i - 1 ∧
    (receive_complete s read_buf 1
        UartError.CommandComplete).1.command_buffer =
      s.command_buffer.set (i - 1) 0 ∧
    (receive_complete s read_buf 1
        UartError.CommandComplete).1.command_buffer.getD (i - 1) 0 = 0 ∧
    (∀ j, j ≠ i - 1 →
      (receive_complete s read_buf 1
          UartError.CommandComplete).1.command_buffer.getD j 0 =
        s.command_buffer.getD j 0) ∧
    (receive_complete s read_buf 1 UartError.CommandComplete).2 =
      (write_bytes s [8, 32, 8]).2.1 ++ [UartOp.receive read_buf 1] := by
  have e1 : receive_complete s read_buf 1 UartError.CommandComplete =
      rearm (handle_byte s 8) read_buf := by
    unfold receive_complete
    rw [hb]
    rfl
  have e2 : handle_byte s 8 =
      ({ (write_bytes s [8, 32, 8]).1 with
           command_buffer := s.command_buffer.set (i - 1) 0,
           command_index := i - 1 },
       (write_bytes s [8, 32, 8]).2.1, false) := by
    simp [handle_byte, hi, hpos]
  rw [e1, e2]
  refine ⟨rfl, rfl, ?_, ?_, rfl⟩
  · exact getD_set_self s.command_buffer (i - 1) 0 0 (by omega)
  · intro j hj
    exact getD_set_ne s.command_buffer (i - 1) j 0 0 (fun e => hj e.symm)

/-- Witness for C6: backspace after a single stored byte returns the
cursor to 0. -/
theorem claim_C6_witness :
    (receive_complete (run_receives demo_console [97]) [8] 1
        UartError.CommandComplete).1.command_index = 0 :=
  (claim_C6 (run_receives demo_console [97]) [8] 1 (by decide) (by decide)
    (by decide) rfl).1

/-- Claim C7: when the cursor sits at `capacity - 1` (full buffer), any
byte other than CR, LF and backspace is dropped: state and trace show
nothing but the unconditional re-arm; concretely, after 15 filler bytes
into the 16-byte buffer a 16th ordinary byte changes nothing and produces
no echo. -/
theorem claim_C7 :
    (∀ s b read_buf, s.command_index = s.command_buffer.length - 1 →
      b ≠ 10 → b ≠ 13 → b ≠ 8 → read_buf.getD 0 0 = b →
      receive_complete s read_buf 1 UartError.CommandComplete =
        ({ s with rx_in_progress := true }, [UartOp.receive read_buf 1])) ∧
    (run_receives demo_console (List.replicate 15 97)).command_index = 15 ∧
    (receive_complete (run_receives demo_console (List.replicate 15 97))
        [98] 1 UartError.CommandComplete).1.command_index = 15 ∧
    (receive_complete (run_receives demo_console (List.replicate 15 97))
        [98] 1 UartError.CommandComplete).1.command_buffer =
      (run_receives demo_console (List.replicate 15 97)).command_buffer ∧
    echoed_bytes (receive_complete
        (run_receives demo_console (List.replicate 15 97)) [98] 1
        UartError.CommandComplete).2 = [] := by
  constructor
  · intro s b read_buf hfull h10 h13 h8 hb
    have e1 : receive_complete s read_buf 1 UartError.CommandComplete =
        rearm (handle_byte s b) read_buf := by
      unfold receive_complete
      rw [hb]
      rfl
    have e2 : handle_byte s b = (s, [], false) := by
      simp [handle_byte, hfull, h10, h13, h8]
    rw [e1, e2]
    rfl
  · refine ⟨by decide, by decide, by decide, by decide⟩

/-- Witness for the universal part of C7 at the full 16-byte buffer. -/
theorem claim_C7_witness :
    receive_complete (run_receives demo_console (List.replicate 15 97))
        [98] 1 UartError.CommandComplete =
      ({ run_receives demo_console (List.replicate 15 97) with
           rx_in_progress := true }, [UartOp.receive [98] 1]) :=
  claim_C7.1 (run_receives demo_console (List.replicate 15 97)) 98 [98]
    (by decide) (by decide) (by decide) (by decide) rfl

/-- Witness for C8 at the freshly constructed console. -/
theorem claim_C8_witness :
    start demo_console =
      ({ demo_console with rx_in_progress := true, rx_buffer := none,
                           running := true },
       [UartOp.receive (List.replicate 16 0) 1], ReturnCode.SUCCESS) :=
  claim_C8.1 demo_console (List.replicate 16 0) rfl rfl

/-- Counterexample to claim C5 as stated: processing exactly the three
callbacks for the bytes h, i, newline from the reset state (idle transmit
channel, no intervening transmit completion) does not end with the buffer
reading h i NUL, nor with two echo bytes submitted: the hand-off zeroes
position 0, and the echo of i is dropped with `EBUSY` because the
transmit of h is still in flight, so only one echo byte h is ever handed
to the UART. -/
theorem claim_C5_counterexample :
    (run_receives_ops demo_console [104, 105, 10]).1.command_buffer.take 3 =
      [0, 105, 0] ∧
    (run_receives_ops demo_console [104, 105, 10]).1.command_buffer.take 3 ≠
      [104, 105, 0] ∧
    echoed_bytes (run_receives_ops demo_console [104, 105, 10]).2 = [104] ∧
    echoed_bytes (run_receives_ops demo_console [104, 105, 10]).2 ≠
      [104, 105] ∧
    (run_receives_ops demo_console [104, 105, 10]).1.command_index = 0 := by
  decide

/-- Amended claim C5: in the h-i-newline scenario with a 16-byte command
buffer, the buffer reads h i NUL at the moment the newline is processed
(after the hand-off, position 0 is zeroed and the cursor is 0), and both
echo bytes h and i are submitted provided each echo transmit completes
(`transmit_complete` returns the transmitted buffer) before the next byte
arrives. -/
theorem claim_C5 :
    hi_s2.command_buffer.take 3 = [104, 105, 0] ∧
    hi_r3.1.command_index = 0 ∧
    hi_r3.1.command_buffer.getD 0 0 = 0 ∧
    hi_r3.1.command_buffer.getD 1 0 = 105 ∧
    echoed_bytes (hi_r1.2 ++ hi_r2.2 ++ hi_r3.2) = [104, 105] ∧
    (transmit_bufs (hi_r1.2 ++ hi_r2.2 ++ hi_r3.2)).length = 2 := by
  decide

/-- Resetting the command line (`read_command`) preserves the
command-buffer invariant. -/
theorem read_command_invariant (s : Console) (h : cmd_invariant s) :
    cmd_invariant (read_command s) := by
  obtain ⟨h1, h2⟩ := h
  refine ⟨?_, ?_⟩
  · show (0 : Nat) < (s.command_buffer.set 0 0).length
    rw [List.length_set]
    omega
  · show (s.command_buffer.set 0 0).getD 0 0 = 0
    exact getD_set_self s.command_buffer 0 0 0 (by omega)

/-- Handling one received byte preserves the command-buffer invariant. -/
theorem handle_byte_invariant (s : Console) (b : Nat) (h : cmd_invariant s) :
    cmd_invariant (handle_byte s b).1 := by
  obtain ⟨h1, h2⟩ := h
  unfold handle_byte
  split
  · exact ⟨h1, h2⟩
  · split
    · rename_i hcond
      obtain ⟨hb8, hpos⟩ := hcond
      refine ⟨?_, ?_⟩
      · show s.command_index - 1 <
          (s.command_buffer.set (s.command_index - 1) 0).length
        rw [List.length_set]
        omega
      · show (s.command_buffer.set (s.command_index - 1) 0).getD
          (s.command_index - 1) 0 = 0
        exact getD_set_self _ _ 0 0 (by omega)
    · split
      · rename_i hlt
        refine ⟨?_, ?_⟩
        · show s.command_index + 1 <
            ((s.command_buffer.set s.command_index b).set
              (s.command_index + 1) 0).length
          rw [List.length_set, List.length_set]
          omega
        · show ((s.command_buffer.set s.command_index b).set
            (s.command_index + 1) 0).getD (s.command_index + 1) 0 = 0
          exact getD_set_self _ _ 0 0 (by rw [List.length_set]; omega)
      · exact ⟨h1, h2⟩

/-- The unconditional re-arm tail preserves the command-buffer invariant. -/
theorem rearm_invariant (r : Console × List UartOp × Bool) (rb : List Nat)
    (h : cmd_invariant r.1) : cmd_invariant (rearm r rb).1 := by
  unfold rearm
  split
  · exact read_command_invariant _ h
  · exact h

/-- Claim C9: the invariant that the cursor lies inside the buffer and the
buffer is NUL-terminated exactly at the cursor is preserved by every
`receive_complete` case (append, backspace, newline with hand-off,
dropped byte, anomalous length or status) and by the hand-off reset
itself. -/
theorem claim_C9 :
    (∀ s read_buf rx_len err, cmd_invariant s →
      cmd_invariant (receive_complete s read_buf rx_len err).1) ∧
    (∀ s, cmd_invariant s → cmd_invariant (read_command s)) := by
  refine ⟨?_, read_command_invariant⟩
  intro s read_buf rx_len err h
  apply rearm_invariant
  split
  · split
    · exact handle_byte_invariant s _ h
    · exact h
  · exact h

/-- Witness for C9 at the reset state receiving an ordinary byte. -/
theorem claim_C9_witness :
    cmd_invariant
      (receive_complete demo_console [97] 1 UartError.CommandComplete).1 :=
  claim_C9.1 demo_console [97] 1 UartError.CommandComplete (by decide)

/-- Operation `write_byte` preserves the transmit-ownership invariant. -/
theorem write_byte_tx_invariant (s : Console) (b : Nat) (h : tx_invariant s) :
    tx_invariant (write_byte s b).1 := by
  unfold write_byte
  split
  · exact h
  · split
    · intro hc
      exact Bool.noConfusion hc
    · intro hc
      exact Bool.noConfusion hc

/-- Operation `write_bytes` preserves the transmit-ownership invariant. -/
theorem write_bytes_tx_invariant (s : Console) (bs : List Nat)
    (h : tx_invariant s) : tx_invariant (write_bytes s bs).1 := by
  unfold write_bytes
  split
  · exact h
  · split
    · intro hc
      exact Bool.noConfusion hc
    · intro hc
      exact Bool.noConfusion hc

/-- Callback `transmit_complete` establishes the transmit-ownership
invariant outright: it returns the buffer to the slot. -/
theorem transmit_complete_tx_invariant (s : Console) (buffer : List Nat) :
    tx_invariant (transmit_complete s buffer) := by
  intro hc
  rfl

/-- Handling one received byte preserves the transmit-ownership
invariant. -/
theorem handle_byte_tx_invariant (s : Console) (b : Nat)
    (h : tx_invariant s) : tx_invariant (handle_byte s b).1 := by
  unfold handle_byte
  split
  · exact h
  · split
    · exact write_bytes_tx_invariant s [8, 32, 8] h
    · split
      · exact write_byte_tx_invariant s b h
      · exact h

/-- The unconditional re-arm tail preserves the transmit-ownership
invariant. -/
theorem rearm_tx_invariant (r : Console × List UartOp × Bool)
    (rb : List Nat) (h : tx_invariant r.1) :
    tx_invariant (rearm r rb).1 := by
  unfold rearm
  split
  · exact h
  · exact h

/-- Callback `receive_complete` preserves the transmit-ownership
invariant. -/
theorem receive_complete_tx_invariant (s : Console) (read_buf : List Nat)
    (rx_len : Nat) (err : UartError) (h : tx_invariant s) :
    tx_invariant (receive_complete s read_buf rx_len err).1 := by
  apply rearm_tx_invariant
  split
  · split
    · exact handle_byte_tx_invariant s _ h
    · exact h
  · exact h

/-- Every external entry point preserves the transmit-ownership
invariant. -/
theorem apply_event_tx_invariant (s : Console) (e : Event)
    (h : tx_invariant s) : tx_invariant (apply_event s e) := by
  cases e with
  | writeByte b => exact write_byte_tx_invariant s b h
  | writeBytes bs => exact write_bytes_tx_invariant s bs h
  | transmitComplete buffer => exact transmit_complete_tx_invariant s buffer
  | receiveComplete rb l err => exact receive_complete_tx_invariant s rb l err h

/-- The transmit-ownership invariant is preserved by any sequence of
entry-point invocations. -/
theorem run_events_tx_invariant : ∀ (es : List Event) (s : Console),
    tx_invariant s → tx_invariant (run_events s es)
  | [], _, h => h
  | e :: es, s, h =>
      run_events_tx_invariant es (apply_event s e)
        (apply_event_tx_invariant s e h)

/-- Claim C10: in every state reachable from construction through
`write_byte`, `write_bytes`, `transmit_complete` and `receive_complete`,
a cleared transmit-in-progress flag implies the transmit-buffer slot is
full; consequently a non-busy `write_byte` (or `write_bytes`) always
succeeds, takes the buffer and issues exactly one UART transmit, never
wedging the transmit path. -/
theorem claim_C10 :
    (∀ uart_baud txb rxb cmdb es,
      tx_invariant (run_events (new uart_baud txb rxb cmdb) es)) ∧
    (∀ s b, tx_invariant s → s.tx_in_progress = false →
      (write_byte s b).2.2 = ReturnCode.SUCCESS ∧
      (write_byte s b).2.1 =
        [UartOp.transmit ((s.tx_buffer.getD []).set 0 b) 1] ∧
      (write_byte s b).1.tx_in_progress = true ∧
      (write_byte s b).1.tx_buffer = none) ∧
    (∀ s bs, tx_invariant s → s.tx_in_progress = false →
      (write_bytes s bs).2.2 = ReturnCode.SUCCESS ∧
      ((write_bytes s bs).2.1.filter is_transmit_op).length = 1 ∧
      (write_bytes s bs).1.tx_in_progress = true) := by
  refine ⟨?_, ?_, ?_⟩
  · intro uart_baud txb rxb cmdb es
    exact run_events_tx_invariant es (new uart_baud txb rxb cmdb)
      (fun _ => rfl)
  · intro s b h hidle
    cases htb : s.tx_buffer with
    | none =>
        have h2 := h hidle
        rw [htb] at h2
        exact Bool.noConfusion h2
    | some buffer =>
        unfold write_byte
        rw [hidle, htb]
        exact ⟨rfl, rfl, rfl, rfl⟩
  · intro s bs h hidle
    cases htb : s.tx_buffer with
    | none =>
        have h2 := h hidle
        rw [htb] at h2
        exact Bool.noConfusion h2
    | some buffer =>
        unfold write_bytes
        rw [hidle, htb]
        exact ⟨rfl, rfl, rfl⟩

/-- Witness for C10: the invariant after a concrete event sequence, and a
non-busy write succeeding at the fresh console. -/
theorem claim_C10_witness :
    tx_invariant
      (run_events (new 115200 [0] [0] [0])
        [Event.writeByte 7, Event.transmitComplete [7]]) ∧
    (write_byte demo_console 7).2.2 = ReturnCode.SUCCESS ∧
    (write_bytes demo_console [1, 2]).2.2 = ReturnCode.SUCCESS :=
  ⟨claim_C10.1 115200 [0] [0] [0]
      [Event.writeByte 7, Event.transmitComplete [7]],
   (claim_C10.2.1 demo_console 7 (by decide) rfl).1,
   (claim_C10.2.2 demo_console [1, 2] (by decide) rfl).1⟩

/-- Unfolding step for `run_receives` on a cons cell. -/
theorem run_receives_cons (s : Console) (b : Nat) (rest : List Nat) :
    run_receives s (b :: rest) =
      run_receives (receive_complete s [b] 1 UartError.CommandComplete).1
        rest := rfl

/-- Receiving one ordinary byte with room in the buffer appends it: the
byte is stored at the cursor, the next position is zeroed and the cursor
advances by one. -/
theorem append_step (s : Console) (b : Nat)
    (h10 : b ≠ 10) (h13 : b ≠ 13) (h8 : b ≠ 8)
    (hroom : s.command_index + 1 < s.command_buffer.length) :
    (receive_complete s [b] 1 UartError.CommandComplete).1.command_buffer =
      (s.command_buffer.set s.command_index b).set (s.command_index + 1) 0 ∧
    (receive_complete s [b] 1 UartError.CommandComplete).1.command_index =
      s.command_index + 1 := by
  have hlt : s.command_index < s.command_buffer.length - 1 := by omega
  have e1 : receive_complete s [b] 1 UartError.CommandComplete =
      rearm (handle_byte s b) [b] := rfl
  have e2 : handle_byte s b =
      ({ (write_byte s b).1 with
           command_buffer := (s.command_buffer.set s.command_index b).set
             (s.command_index + 1) 0,
           command_index := s.command_index + 1 },
       (write_byte s b).2.1, false) := by
    simp [handle_byte, h10, h13, h8, hlt]
  rw [e1, e2]
  exact ⟨rfl, rfl⟩

/-- Accumulation lemma: delivering a sequence of ordinary bytes (no CR,
LF or backspace) that fits in the remaining room writes them verbatim
after the cursor, keeps the prefix before the cursor, advances the cursor
by the sequence length and NUL-terminates at the new cursor. -/
theorem run_receives_append : ∀ (seq : List Nat) (s : Console),
    (∀ b ∈ seq, b ≠ 10 ∧ b ≠ 13 ∧ b ≠ 8) →
    s.command_index + seq.length < s.command_buffer.length →
    s.command_buffer.getD s.command_index 0 = 0 →
    (run_receives s seq).command_buffer.length =
      s.command_buffer.length ∧
    (run_receives s seq).command_index = s.command_index + seq.length ∧
    (∀ j, j < s.command_index →
      (run_receives s seq).command_buffer.getD j 0 =
        s.command_buffer.getD j 0) ∧
    (∀ j, j < seq.length →
      (run_receives s seq).command_buffer.getD (s.command_index + j) 0 =
        seq.getD j 0) ∧
    (run_receives s seq).command_buffer.getD
      (s.command_index + seq.length) 0 = 0 := by
  intro seq
  induction seq with
  | nil =>
      intro s _ _ hnul
      exact ⟨rfl, rfl, fun _ _ => rfl,
        fun j hj => absurd hj (Nat.not_lt_zero j), hnul⟩
  | cons b rest ih =>
      intro s hseq hcap hnul
      obtain ⟨hb10, hb13, hb8⟩ := hseq b (List.mem_cons_self b rest)
      have hlenc : (b :: rest).length = rest.length + 1 := rfl
      have hroom : s.command_index + 1 < s.command_buffer.length := by
        rw [hlenc] at hcap
        omega
      obtain ⟨ebuf, eidx⟩ := append_step s b hb10 hb13 hb8 hroom
      rw [run_receives_cons]
      have hlen1 :
          (receive_complete s [b] 1
            UartError.CommandComplete).1.command_buffer.length =
          s.command_buffer.length := by
        rw [ebuf, List.length_set, List.length_set]
      have hcap1 :
          (receive_complete s [b] 1
            UartError.CommandComplete).1.command_index + rest.length <
          (receive_complete s [b] 1
            UartError.CommandComplete).1.command_buffer.length := by
        rw [eidx, hlen1]
        rw [hlenc] at hcap
        omega
      have hnul1 :
          (receive_complete s [b] 1
            UartError.CommandComplete).1.command_buffer.getD
            (receive_complete s [b] 1
              UartError.CommandComplete).1.command_index 0 = 0 := by
        rw [eidx, ebuf]
        exact getD_set_self _ _ 0 0 (by rw [List.length_set]; omega)
      obtain ⟨ia, ib, ic, idd, ie⟩ :=
        ih (receive_complete s [b] 1 UartError.CommandComplete).1
          (fun x hx => hseq x (List.mem_cons_of_mem b hx)) hcap1 hnul1
      refine ⟨?_, ?_, ?_, ?_, ?_⟩
      · rw [ia, hlen1]
      · rw [ib, eidx, hlenc]
        omega
      · intro j hj
        have hj1 : j < (receive_complete s [b] 1
            UartError.CommandComplete).1.command_index := by
          rw [eidx]
          omega
        rw [ic j hj1, ebuf,
          getD_set_ne _ _ _ 0 0 (by omega),
          getD_set_ne _ _ _ b 0 (by omega)]
      · intro j hj
        cases j with
        | zero =>
            have h0 : s.command_index < (receive_complete s [b] 1
                UartError.CommandComplete).1.command_index := by
              rw [eidx]
              omega
            have := ic s.command_index h0
            rw [Nat.add_zero, this, ebuf,
              getD_set_ne _ _ _ 0 0 (by omega)]
            exact getD_set_self _ _ b 0 (by omega)
        | succ k =>
            have hk : k < rest.length := by
              rw [hlenc] at hj
              omega
            have harith : s.command_index + (k + 1) =
                (receive_complete s [b] 1
                  UartError.CommandComplete).1.command_index + k := by
              rw [eidx]
              omega
            rw [harith]
            exact idd k hk
      · have harith : s.command_index + (b :: rest).length =
            (receive_complete s [b] 1
              UartError.CommandComplete).1.command_index + rest.length := by
          rw [eidx, hlenc]
          omega
        rw [harith]
        exact ie

/-- Receiving a CR or LF marks the line ready: the state is handed off
through `read_command` (buffer untouched except position 0 zeroed, cursor
reset) and the only UART call is the unconditional re-arm. -/
theorem terminator_step (s : Console) (t : Nat) (ht : t = 10 ∨ t = 13) :
    receive_complete s [t] 1 UartError.CommandComplete =
      (read_command { s with rx_in_progress := true },
       [UartOp.receive [t] 1]) := by
  have e2 : handle_byte s t = (s, [], true) := by
    unfold handle_byte
    rw [if_pos ht]
  show rearm (handle_byte s t) [t] = _
  rw [e2]
  rfl

/-- Claim C2: a sequence of n non-CR, non-LF, non-backspace bytes
(n at most capacity minus 1) delivered from the reset state, followed by
one CR or LF: when the line is marked ready the buffer holds exactly the
sequence, NUL-terminated at position n (the terminator byte itself is not
stored), and right after the hand-off the cursor is 0 again. -/
theorem claim_C2 (seq : List Nat) (s : Console) (t : Nat)
    (hseq : ∀ b ∈ seq, b ≠ 10 ∧ b ≠ 13 ∧ b ≠ 8)
    (hidx : s.command_index = 0)
    (hnul : s.command_buffer.getD 0 0 = 0)
    (hlen : seq.length + 1 ≤ s.command_buffer.length)
    (hterm : t = 10 ∨ t = 13) :
    (∀ j, j < seq.length →
      (run_receives s seq).command_buffer.getD j 0 = seq.getD j 0) ∧
    (run_receives s seq).command_buffer.getD seq.length 0 = 0 ∧
    (run_receives s seq).command_index = seq.length ∧
    (receive_complete (run_receives s seq) [t] 1
        UartError.CommandComplete).1.command_index = 0 := by
  have hcap : s.command_index + seq.length < s.command_buffer.length := by
    omega
  have hnul0 : s.command_buffer.getD s.command_index 0 = 0 := by
    rw [hidx]
    exact hnul
  obtain ⟨ia, ib, ic, idd, ie⟩ := run_receives_append seq s hseq hcap hnul0
  refine ⟨?_, ?_, ?_, ?_⟩
  · intro j hj
    have := idd j hj
    rw [hidx] at this
    simpa using this
  · have := ie
    rw [hidx] at this
    simpa using this
  · rw [ib, hidx]
    omega
  · rw [terminator_step (run_receives s seq) t hterm]
    rfl

/-- Witness for C2 with the two-byte sequence h i followed by LF into the
16-byte buffer. -/
theorem claim_C2_witness :
    (run_receives demo_console [104, 105]).command_buffer.getD 0 0 = 104 ∧
    (run_receives demo_console [104, 105]).command_buffer.getD 1 0 = 105 ∧
    (run_receives demo_console [104, 105]).command_buffer.getD 2 0 = 0 ∧
    (receive_complete (run_receives demo_console [104, 105]) [10] 1
        UartError.CommandComplete).1.command_index = 0 := by
  obtain ⟨a, b2, _, d⟩ := claim_C2 [104, 105] demo_console 10 (by decide)
    rfl (by decide) (by decide) (Or.inl rfl)
  exact ⟨a 0 (by decide), a 1 (by decide), b2, d⟩

end ProcessConsole
